import Mathlib

/-!
Verification development for the binprint fingerprinting engine.

The definitions below are a shallow embedding of the Go sources:
digests are fixed-width byte arrays modelled as `List Nat` (one entry
per byte), a `Fingerprint` is the record of nine digests plus a size,
and the in-memory graph store is modelled with integer references in
place of Go pointers (every interned object lives in a slice, and a
pointer to an interned object is identified with its slice index,
which is sound because the store only ever appends freshly allocated
objects).
-/

namespace Binprint

/-- Byte-level digest; the Go sources use fixed-width byte arrays
(widths 16/20/32/48/64/20/8/16/32).  A digest value is a list of
bytes of the appropriate width. -/
abbrev DigestBytes := List Nat

/-- The all-zero digest of width `w`, the Go zero value of a digest
array, meaning "not computed". -/
def zeroDigest (w : Nat) : DigestBytes := List.replicate w 0

/-- Embeds `IsZero` of the digest types in `hash` (part_011): a digest
is zero when it equals the zero value of its fixed-width array type,
i.e. when every byte is zero. -/
def Digest.isZero (d : DigestBytes) : Bool := d.all (fun b => b == 0)

/-- Embeds `record.Fingerprint` (part_007): nine digests plus `Size`,
together with the embedded cache id (`embeddedCacheID`: `hasID`/`id`
modelled as an `Option Nat`, `none` meaning not interned). -/
@[ext] structure Fingerprint where
  gitSHA : DigestBytes := zeroDigest 20
  md5 : DigestBytes := zeroDigest 16
  sha1 : DigestBytes := zeroDigest 20
  sha256 : DigestBytes := zeroDigest 32
  sha384 : DigestBytes := zeroDigest 48
  sha512 : DigestBytes := zeroDigest 64
  hwy64 : DigestBytes := zeroDigest 8
  hwy128 : DigestBytes := zeroDigest 16
  hwy256 : DigestBytes := zeroDigest 32
  size : Int := 0
  cacheID : Option Nat := none
deriving Repr, DecidableEq

/-- Go `CacheID()` on `embeddedCacheID` returns the stored id, whose
zero value is 0 when no id has been set. -/
def cacheIDVal (c : Option Nat) : Nat := c.getD 0

/-- Embeds `Fingerprint.UpdateWith` (part_007 lines 365-408): fills in
any digest (or size) of `f` that is missing, taking the value from
`of`; already-populated fields are left alone.  The Go function
performs ten sequential guarded assignments, but each guard reads only
the one field that its assignment writes, so the sequential updates
are written here as one simultaneous record update.  The Go function
also returns the number of fields copied; that counter is discarded by
the only caller in the store (`PutFingerprint`) and is omitted. -/
def Fingerprint.updateWith (f of : Fingerprint) : Fingerprint :=
  { f with
    size := if f.size == 0 && of.size != 0 then of.size else f.size
    gitSHA := if Digest.isZero f.gitSHA && !(f.gitSHA == of.gitSHA) then of.gitSHA else f.gitSHA
    md5 := if Digest.isZero f.md5 && !(f.md5 == of.md5) then of.md5 else f.md5
    sha1 := if Digest.isZero f.sha1 && !(f.sha1 == of.sha1) then of.sha1 else f.sha1
    sha256 := if Digest.isZero f.sha256 && !(f.sha256 == of.sha256) then of.sha256 else f.sha256
    sha384 := if Digest.isZero f.sha384 && !(f.sha384 == of.sha384) then of.sha384 else f.sha384
    sha512 := if Digest.isZero f.sha512 && !(f.sha512 == of.sha512) then of.sha512 else f.sha512
    hwy64 := if Digest.isZero f.hwy64 && !(f.hwy64 == of.hwy64) then of.hwy64 else f.hwy64
    hwy128 := if Digest.isZero f.hwy128 && !(f.hwy128 == of.hwy128) then of.hwy128 else f.hwy128
    hwy256 := if Digest.isZero f.hwy256 && !(f.hwy256 == of.hwy256) then of.hwy256 else f.hwy256 }

/-- Pointwise description of the merge: every field of the result is
the original when it was populated and the other fingerprint's value
when it was zero; the cache id is untouched. -/
def Fingerprint.mergeSpec (f of : Fingerprint) : Fingerprint :=
  { gitSHA := if Digest.isZero f.gitSHA then of.gitSHA else f.gitSHA
    md5 := if Digest.isZero f.md5 then of.md5 else f.md5
    sha1 := if Digest.isZero f.sha1 then of.sha1 else f.sha1
    sha256 := if Digest.isZero f.sha256 then of.sha256 else f.sha256
    sha384 := if Digest.isZero f.sha384 then of.sha384 else f.sha384
    sha512 := if Digest.isZero f.sha512 then of.sha512 else f.sha512
    hwy64 := if Digest.isZero f.hwy64 then of.hwy64 else f.hwy64
    hwy128 := if Digest.isZero f.hwy128 then of.hwy128 else f.hwy128
    hwy256 := if Digest.isZero f.hwy256 then of.hwy256 else f.hwy256
    size := if f.size == 0 then of.size else f.size
    cacheID := f.cacheID }

/-- Embeds `Fingerprint.Is` (part_007 lines 250-306) for the case where
the argument is itself a fingerprint.  `samePtr` models the Go pointer
equality check `f == of` performed on the two `*Fingerprint` values
(the receiver and the argument); for two distinct Go objects it is
`false`.  After that check the code rejects fingerprints with two
conflicting non-zero sizes, then accepts as soon as some digest that
is non-zero on the receiver side coincides, in the source's order. -/
def fingerprintIs (samePtr : Bool) (f of : Fingerprint) : Bool :=
  if samePtr then true
  else if f.size != 0 && of.size != 0 && f.size != of.size then false
  else if !(Digest.isZero f.gitSHA) && f.gitSHA == of.gitSHA then true
  else if !(Digest.isZero f.md5) && f.md5 == of.md5 then true
  else if !(Digest.isZero f.hwy64) && f.hwy64 == of.hwy64 then true
  else if !(Digest.isZero f.hwy128) && f.hwy128 == of.hwy128 then true
  else if !(Digest.isZero f.hwy256) && f.hwy256 == of.hwy256 then true
  else if !(Digest.isZero f.sha1) && f.sha1 == of.sha1 then true
  else if !(Digest.isZero f.sha256) && f.sha256 == of.sha256 then true
  else if !(Digest.isZero f.sha384) && f.sha384 == of.sha384 then true
  else if !(Digest.isZero f.sha512) && f.sha512 == of.sha512 then true
  else false

/-! ### Hex rendering (the `String()` method of the digest types) -/
/-- One hex digit, lowercase, as produced by Go's `encoding/hex`. -/
def hexDigitChar (n : Nat) : Char :=
  if n < 10 then Char.ofNat (48 + n) else Char.ofNat (87 + n)

/-- Embeds `hex.EncodeToString` as used by the digests' `String()`
methods: two lowercase hex digits per byte, high nibble first. -/
def hexStr (d : DigestBytes) : String :=
  String.mk (d.foldr (fun b acc => hexDigitChar (b / 16) :: hexDigitChar (b % 16) :: acc) [])

/-- Embeds `strings.HasSuffix`, stated on the character lists of the
two strings. -/
def goEndsWith (name ext : String) : Bool := ext.toList.isSuffixOf name.toList

/-- Embeds `strings.HasPrefix`, stated on the character lists of the
two strings. -/
def goStartsWith (s pre : String) : Bool := pre.toList.isPrefixOf s.toList

/-! ### Digest matchers (part_011 `NewDigestMatcher`, part_017 `FingerprintMatcher.Match`) -/
/-- The algorithm alternatives of the anchored pattern
`^(\*|git|gitsha|sha1|sha256|sha384|sha512):([0-9a-fA-F]+)$`. -/
def matcherAlgos : List String :=
  ["*", "git", "gitsha", "sha1", "sha256", "sha384", "sha512"]

/-- A character of the `[0-9a-fA-F]` class. -/
def isHexChar (c : Char) : Bool :=
  ('0' ≤ c && c ≤ '9') || ('a' ≤ c && c ≤ 'f') || ('A' ≤ c && c ≤ 'F')

/-- Numeric value of a hex digit (0 for non-hex input, which the
callers below exclude). -/
def hexVal (c : Char) : Nat :=
  if '0' ≤ c && c ≤ '9' then c.toNat - 48
  else if 'a' ≤ c && c ≤ 'f' then c.toNat - 87
  else if 'A' ≤ c && c ≤ 'F' then c.toNat - 55
  else 0

/-- Embeds `hex.DecodeString` on an even-length string of hex digits:
each pair of digits becomes one byte. -/
def hexDecode : List Char → List Nat
  | c1 :: c2 :: rest => (16 * hexVal c1 + hexVal c2) :: hexDecode rest
  | _ => []

/-- Embeds `hash.DigestMatcher` (part_011): `T` is the algorithm part
of the pattern, `P` the hex part, and `B` the decoded bytes when the
hex part had even length (`hex.DecodeString` fails on odd length,
leaving `B` nil, modelled as `none`). -/
structure DigestMatcher where
  P : String
  T : String
  B : Option (List Nat)
deriving Repr, DecidableEq

/-- The alternation `(\*|git|gitsha|sha1|sha256|sha384|sha512)` of
`matcherFormat` followed by the literal `:`, applied at the start of
the pattern.  At most one alternative can apply because no alternative
contains a colon (proved below). -/
def findAlgoAlt (cs : List Char) : Option String :=
  if ("*".toList ++ [':']).isPrefixOf cs then some "*"
  else if ("git".toList ++ [':']).isPrefixOf cs then some "git"
  else if ("gitsha".toList ++ [':']).isPrefixOf cs then some "gitsha"
  else if ("sha1".toList ++ [':']).isPrefixOf cs then some "sha1"
  else if ("sha256".toList ++ [':']).isPrefixOf cs then some "sha256"
  else if ("sha384".toList ++ [':']).isPrefixOf cs then some "sha384"
  else if ("sha512".toList ++ [':']).isPrefixOf cs then some "sha512"
  else none

/-- The hex part of the pattern: it must be a non-empty run of hex
digits reaching the end of the string; `B` is the hex-decoded bytes
when decoding succeeds (even length). -/
def checkHexPart (t : String) (p : List Char) : Except String DigestMatcher :=
  if p.length > 0 && p.all isHexChar then
    .ok { T := t, P := String.mk p
          B := if p.length % 2 == 0 then some (hexDecode p) else none }
  else .error "Invalid pattern"

/-- Embeds `NewDigestMatcher` (part_011 lines 91-105): the pattern
must match the anchored regular expression `matcherFormat`, i.e. be an
algorithm alternative, a colon, and a hex part spanning the rest of
the string. -/
def newDigestMatcher (pat : String) : Except String DigestMatcher :=
  match findAlgoAlt pat.toList with
  | none => .error "Invalid pattern"
  | some t => checkHexPart t (pat.toList.drop (t.toList.length + 1))

/-- Embeds `DigestMatcher.Match` (part_011 lines 110-126): a byte
prefix comparison when the pattern decoded to bytes, otherwise a
string prefix comparison on the hex rendering.  The first guard is
Go's `len(matcher.B) > hash.Size()` where `len` of a nil slice is 0;
the digest argument is given by its bytes, whose length equals the
digest's `Size()`. -/
def digestMatcherMatch (m : DigestMatcher) (d : DigestBytes) : Bool :=
  if (m.B.getD []).length > d.length then false
  else
    match m.B with
    | some b => b.isPrefixOf d
    | none => goStartsWith (hexStr d) m.P

/-- Embeds `Fingerprint.GetDigest` (part_007 lines 71-92).  Note the
source has no `"md5"` case and names the HighwayHash digests
`"hwy64bp"`/`"hwy128bp"`/`"hwy256bp"`. -/
def getDigest (f : Fingerprint) (alg : String) : Option DigestBytes :=
  match alg with
  | "git" | "gitsha" => some f.gitSHA
  | "sha1" => some f.sha1
  | "sha256" => some f.sha256
  | "sha384" => some f.sha384
  | "sha512" => some f.sha512
  | "hwy64bp" => some f.hwy64
  | "hwy128bp" => some f.hwy128
  | "hwy256bp" => some f.hwy256
  | _ => none

/-- Embeds `FingerprintMatcher.Match` (part_017 lines 29-37): a
wildcard or empty algorithm returns false immediately (the source
carries a TODO for wildcarding); otherwise the named digest is fetched
and compared when present. -/
def fingerprintMatcherMatch (m : DigestMatcher) (f : Fingerprint) : Bool :=
  if m.T == "*" || m.T == "" then false
  else
    match getDigest f m.T with
    | some d => digestMatcherMatch m d
    | none => false

/-! ### The `hash all` command (src/cmd/binprint/hash.go) -/
/-- The algorithm names iterated by the `hash` commands
(src/cmd/binprint/hash.go lines 86-96). -/
def knownAlgorithms : List String :=
  ["md5", "sha1", "sha256", "sha384", "sha512", "git", "hwy64", "hwy128", "hwy256"]

/-- Rendering of a `hash.Digest` interface value through `fmt`'s `%s`
verb: the hex string for a digest, and Go's bad-verb diagnostic
`%!s(<nil>)` for a nil interface. -/
def goFmtDigest : Option DigestBytes → String
  | some d => hexStr d
  | none => "%!s(<nil>)"

/-- One output line of `hash all` (src/cmd/binprint/hash.go line 34):
`fmt.Printf("%s:%s  %s\n", alg, result.Fingerprint.GetDigest(alg), path)`. -/
def hashAllLine (f : Fingerprint) (alg path : String) : String :=
  alg ++ ":" ++ goFmtDigest (getDigest f alg) ++ "  " ++ path

/-! ### Hashers (src/hash, part_010) -/
/-- The cryptographic primitives (MD5, SHA family, keyed HighwayHash)
are external library collaborators; the pipeline is modelled over an
arbitrary family of pure digest functions from payload bytes. -/
structure HashFns where
  md5fn : List Nat → DigestBytes
  sha1fn : List Nat → DigestBytes
  sha256fn : List Nat → DigestBytes
  sha384fn : List Nat → DigestBytes
  sha512fn : List Nat → DigestBytes
  hwy64fn : List Nat → DigestBytes
  hwy128fn : List Nat → DigestBytes
  hwy256fn : List Nat → DigestBytes

/-- Bytes of an ASCII string. -/
def strBytes (s : String) : List Nat := s.toList.map Char.toNat

/-- The git object header `<type> <decimal length>\0` pre-hashed by
`NewGitShaHasher` (src/hash/gitsha.go lines 95-111). -/
def gitBlobHeader (oType : String) (size : Int) : List Nat :=
  strBytes (oType ++ " " ++ toString size) ++ [0]

/-- Embeds `GitShaHasher.Done` (src/hash/gitsha.go lines 72-84): the
underlying `BasicHasher` counts the payload bytes written through the
pipe (`bytesHashed`, part_010 line 64); when that count differs from
the declared size the hasher discards the digest and emits a nil
result, otherwise it emits the SHA-1 of header plus payload. -/
def gitShaHasherDone (H : HashFns) (oType : String) (size : Int) (payload : List Nat) :
    Option DigestBytes :=
  if (payload.length : Int) ≠ size then none
  else some (H.sha1fn (gitBlobHeader oType size ++ payload))

/-- Embeds `Fingerprint.CalculateSums` (part_007 lines 128-243): the
size is adopted from the argument when missing; one hasher is started
for every digest that is still zero (the git hasher additionally
requires a non-negative size); all hashers consume the same byte
stream; when the copy failed (`ioErr`) every result is dropped,
otherwise each non-nil result is assigned to its field — the git
hasher's nil result on a length mismatch falls through the type switch
and leaves `gitSHA` untouched. -/
def calculateSums (H : HashFns) (f : Fingerprint) (data : List Nat) (size : Int)
    (ioErr : Bool) : Fingerprint :=
  let f := if f.size == 0 && size != 0 then { f with size := size } else f
  if ioErr then f
  else
    let f := if Digest.isZero f.gitSHA && decide (0 ≤ f.size) then
               match gitShaHasherDone H "blob" f.size data with
               | some d => { f with gitSHA := d }
               | none => f
             else f
    let f := if Digest.isZero f.md5 then { f with md5 := H.md5fn data } else f
    let f := if Digest.isZero f.sha1 then { f with sha1 := H.sha1fn data } else f
    let f := if Digest.isZero f.sha256 then { f with sha256 := H.sha256fn data } else f
    let f := if Digest.isZero f.sha384 then { f with sha384 := H.sha384fn data } else f
    let f := if Digest.isZero f.sha512 then { f with sha512 := H.sha512fn data } else f
    let f := if Digest.isZero f.hwy64 then { f with hwy64 := H.hwy64fn data } else f
    let f := if Digest.isZero f.hwy128 then { f with hwy128 := H.hwy128fn data } else f
    let f := if Digest.isZero f.hwy256 then { f with hwy256 := H.hwy256fn data } else f
    f

/-! ### Archive entry dispatch (part_012, src/scanner) -/
/-- The suffix keys of `archiveScanners` (part_012 lines 30-47). -/
def archiveSuffixes : List String :=
  [".zip", ".jar", ".tar", ".txz", ".tar.xz", "tar.sz", "tar.lzma",
   ".tgz", ".tar.gz", ".tar.bz2", ".tbz2", ".ar", ".cpio"]

/-- The suffix keys of `pkgScanners` (src/scanner/package_scanner.go). -/
def packageSuffixes : List String := [".rpm", ".deb"]

/-- Embeds `IsScannableArchive` (part_012 lines 66-73): any registered
suffix matches.  (Go map iteration order is irrelevant to the result.) -/
def isScannableArchive (name : String) : Bool :=
  archiveSuffixes.any (fun ext => goEndsWith name ext)

/-- Embeds `IsScannablePackage` (src/scanner/package_scanner.go). -/
def isScannablePackage (name : String) : Bool :=
  packageSuffixes.any (fun ext => goEndsWith name ext)

/-- What `fingerprintArchiveEntry` does with an archive entry. -/
inductive EntryAction where
  | recurseArchive
  | recursePackage
  | plainBlob
deriving Repr, DecidableEq

/-- Embeds the dispatch of `fingerprintArchiveEntry` (part_012 lines
418-451): the depth counter is incremented, then the branch taken
depends only on the entry name — a scannable archive recurses via
`IdentifyArchiveContents`, a scannable package via
`IdentifyPackageContents`, anything else is hashed as a plain blob.
The `limit` parameter is received and passed on to the recursive
calls, exactly as in the source, where no comparison against it
occurs. -/
def fingerprintArchiveEntryAction (name : String) (depth limit : Nat) : EntryAction × Nat :=
  let depth := depth + 1
  let _ := limit
  if isScannableArchive name then (EntryAction.recurseArchive, depth)
  else if isScannablePackage name then (EntryAction.recursePackage, depth)
  else (EntryAction.plainBlob, depth)

/-- `deepScanWorker` (src/scanner/inventory.go line 185) starts every
top-level scan with `depth = 0` and `limit = 10`. -/
def deepScanStartDepth : Nat := 0

/-- The recursion limit passed by `deepScanWorker`. -/
def deepScanLimit : Nat := 10

/-! ### The passthrough tee (part_016 `fingerprintPassthrough`) -/
/-- Dynamic (runtime) types of the readers that can reach the tee. -/
inductive GoReaderType where
  /-- A value of the struct type `passthroughHasher`. -/
  | passthroughHasherStruct
  /-- A value of the pointer type `*passthroughHasher`, as produced by
  `&passthroughHasher{PipeReader: wrapRead}`. -/
  | ptrPassthroughHasher
  /-- Any other reader (files, tar/cpio/ar readers, pipes, ...). -/
  | otherReader (n : Nat)
deriving Repr, DecidableEq

/-- Embeds the nested-wrap check of `fingerprintPassthrough` (part_016
line 294): the type assertion `r.(passthroughHasher)` succeeds exactly
when the dynamic type of `r` is the struct type `passthroughHasher`
itself — a `*passthroughHasher` does not satisfy it. -/
def nestedWrapCheckFires (t : GoReaderType) : Bool :=
  t == GoReaderType.passthroughHasherStruct

/-- The dynamic type of the reader returned by
`fingerprintPassthrough` (part_016 line 342): the function returns
`&passthroughHasher{PipeReader: wrapRead}`, whose dynamic type is the
pointer type `*passthroughHasher`. -/
def fingerprintPassthroughResultType : GoReaderType :=
  GoReaderType.ptrPassthroughHasher

/-! ### The matcher claim (C4) -/
/-- The pattern language of the specification: an algorithm
alternative, a colon, and a non-empty run of hex digits spanning the
rest of the pattern. -/
def matcherAccepts (pat : String) : Prop :=
  ∃ t p, t ∈ matcherAlgos ∧ p ≠ [] ∧ p.all isHexChar = true
    ∧ pat.toList = t.toList ++ ':' :: p

/-- Concrete fingerprint whose sha256 digest begins with the bytes
`9f 86`. -/
def fpWildcardEx : Fingerprint := { sha256 := 159 :: 134 :: List.replicate 30 0 }

/-- Concrete hash oracle for witness instantiations. -/
def witnessHashFns : HashFns :=
  ⟨fun _ => [1], fun _ => [2], fun _ => [3], fun _ => [4],
   fun _ => [5], fun _ => [6], fun _ => [7], fun _ => [8]⟩

/-- Fingerprint pair sharing a populated sha256 but with conflicting
non-zero sizes. -/
def fpSizeOne : Fingerprint := { size := 1, sha256 := 159 :: List.replicate 31 0 }

/-- Same sha256 as `fpSizeOne` but size two. -/
def fpSizeTwo : Fingerprint := { size := 2, sha256 := 159 :: List.replicate 31 0 }

/-! ### The graph store (src/store/cache.go)

Pointers to interned objects are modelled as indices into the store's
slices.  This identification is sound because the store only ever
appends freshly allocated objects to its slices, so two slice entries
are never the same Go object, and every interned pointer held by other
records points at some slice entry. -/
/-- A `*record.Fingerprint` argument to a store operation: either a
pointer to an interned fingerprint (identified with its slice index)
or a freshly allocated fingerprint.  Fresh fingerprints never carry a
cache id, because `SetCacheID` is called only by the store when it
appends; interned fingerprints always do. -/
inductive FpArg where
  | ref (i : Nat)
  | fresh (fp : Fingerprint)
deriving Repr, DecidableEq

/-- An interned `record.File`: path plus the pointer (index) of its
interned fingerprint, and the embedded cache id. -/
structure FileRec where
  path : String
  fp : Nat
  cacheID : Option Nat := none
deriving Repr, DecidableEq, Inhabited

/-- A freshly allocated `record.File` before interning: its
fingerprint pointer may already be interned or fresh. -/
structure FileVal where
  path : String
  fp : FpArg
deriving Repr, DecidableEq

/-- A `*record.File` argument to a store operation. -/
inductive FileArg where
  | ref (i : Nat)
  | fresh (f : FileVal)
deriving Repr, DecidableEq

/-- An interned `record.ArchiveFile`: the pointer of its own file, the
pointers of its entries in scan order, and the embedded cache id. -/
structure ArchRec where
  file : Nat
  entries : List Nat
  cacheID : Option Nat := none
deriving Repr, DecidableEq, Inhabited

/-- A `*record.ArchiveFile` argument before interning. -/
structure ArchArg where
  file : FileArg
  entries : List FileArg
deriving Repr, DecidableEq

/-- An interned `record.GitRepoSource`. -/
structure RepoRec where
  commit : DigestBytes
  tag : String := ""
  branch : String := ""
  url : String := ""
  files : List Nat := []
  cacheID : Option Nat := none
deriving Repr, DecidableEq, Inhabited

/-- A `*record.GitRepoSource` argument before interning. -/
structure RepoArg where
  commit : DigestBytes
  tag : String := ""
  branch : String := ""
  url : String := ""
  files : List FileArg := []
deriving Repr, DecidableEq

/-- Go map lookup on the git-sha index. -/
def mapLookup (m : List (DigestBytes × Nat)) (k : DigestBytes) : Option Nat :=
  match m with
  | [] => none
  | (k', v) :: rest => if k' == k then some v else mapLookup rest k

/-- Go map assignment `m[k] = v`: replace in place or append. -/
def mapInsert (m : List (DigestBytes × Nat)) (k : DigestBytes) (v : Nat) :
    List (DigestBytes × Nat) :=
  match m with
  | [] => [(k, v)]
  | (k', v') :: rest => if k' == k then (k, v) :: rest else (k', v') :: mapInsert rest k v

/-- `ARCCache.Add`: overwrite in place or append.  The bounded
capacity (2^20 entries) and adaptive eviction of the ARC cache are not
modelled; no claim depends on eviction. -/
def arcAdd (m : List (String × Nat)) (k : String) (v : Nat) : List (String × Nat) :=
  match m with
  | [] => [(k, v)]
  | (k', v') :: rest => if k' == k then (k, v) :: rest else (k', v') :: arcAdd rest k v

/-- Embeds `fingerprintInMemoryCache` (src/store/cache.go lines 34-46):
the four object slices, the git-sha index, the Bloom filter (modelled
as the exact list of digests added to it: a Bloom filter has no false
negatives, and a false positive never changes an observable result
because every filter hit is followed by a probe of the exact index),
and the stat cache. -/
structure Store where
  fingerprints : List Fingerprint := []
  gitSHAIndex : List (DigestBytes × Nat) := []
  gitSHAFilter : List DigestBytes := []
  files : List FileRec := []
  archives : List ArchRec := []
  repos : List RepoRec := []
  statCache : List (String × Nat) := []
deriving Repr, DecidableEq

/-- `newInMemoryCache` (src/store/cache.go lines 336-352): everything
starts empty (the capacity hints are irrelevant to contents). -/
def emptyStore : Store := {}

/-- The fingerprint value a `FpArg` pointer refers to. -/
def resolveFpArg (s : Store) : FpArg → Fingerprint
  | .ref i => s.fingerprints.getD i {}
  | .fresh fp => fp

/-- Go pointer equality between a fingerprint argument and an interned
fingerprint pointer. -/
def fpArgPtrEq (a : FpArg) (i : Nat) : Bool :=
  match a with
  | .ref j => j == i
  | .fresh _ => false

/-- Embeds `GetFingerprintByGitSHA` (src/store/cache.go lines 573-599):
the Bloom filter is consulted first for a fast negative; on a filter
hit the exact index decides. -/
def getFingerprintByGitSHA (s : Store) (g : DigestBytes) : Option Nat :=
  if s.gitSHAFilter.contains g then mapLookup s.gitSHAIndex g else none

/-- Embeds `PutFingerprint` (src/store/cache.go lines 531-571).  A
cached argument is returned as-is.  Otherwise the git-sha index is
probed (with the argument's git-sha, zero or not); on a miss the
fingerprints are scanned for the first entry equivalent under `Is`
(the stored entry and the fresh argument are distinct objects, so the
pointer-equality branch of `Is` is false).  A match is merged into
with `UpdateWith` and its reference returned; otherwise the argument
is appended, given the next id, and the git-sha index and Bloom
filter are updated with its git-sha (again zero or not). -/
def putFingerprint (s : Store) (a : FpArg) : Store × Nat :=
  match a with
  | .ref i => (s, i)
  | .fresh fp =>
    match getFingerprintByGitSHA s fp.gitSHA with
    | some i =>
      ({ s with fingerprints :=
          s.fingerprints.set i ((s.fingerprints.getD i {}).updateWith fp) }, i)
    | none =>
      match (List.range s.fingerprints.length).find?
          (fun i => fingerprintIs false (s.fingerprints.getD i {}) fp) with
      | some i =>
        ({ s with fingerprints :=
            s.fingerprints.set i ((s.fingerprints.getD i {}).updateWith fp) }, i)
      | none =>
        ({ s with
            fingerprints := s.fingerprints ++ [{ fp with cacheID := some s.fingerprints.length }]
            gitSHAIndex := mapInsert s.gitSHAIndex fp.gitSHA s.fingerprints.length
            gitSHAFilter := s.gitSHAFilter ++ [fp.gitSHA] }, s.fingerprints.length)

/-- Embeds `PutFile` (src/store/cache.go lines 628-652).  A cached
argument is returned as-is.  Otherwise the files are scanned for an
entry with the same path whose fingerprint pointer is the argument's
fingerprint pointer or an equivalent fingerprint under `Is`; a match
is returned, otherwise the argument's fingerprint is interned, the
file is appended and given the next id. -/
def putFile (s : Store) (a : FileArg) : Store × Nat :=
  match a with
  | .ref i => (s, i)
  | .fresh f =>
    match (List.range s.files.length).find? (fun i =>
        (s.files.getD i default).path == f.path
        && (fpArgPtrEq f.fp (s.files.getD i default).fp
            || fingerprintIs (fpArgPtrEq f.fp (s.files.getD i default).fp)
                (s.fingerprints.getD (s.files.getD i default).fp {})
                (resolveFpArg s f.fp))) with
    | some i => (s, i)
    | none =>
      let r := putFingerprint s f.fp
      ({ r.1 with files := r.1.files ++ [{ path := f.path, fp := r.2, cacheID := some r.1.files.length }] },
       r.1.files.length)

/-- Interning of a list of file arguments in order, threading the
store through each `PutFile`. -/
def putFilesList (s : Store) (l : List FileArg) : Store × List Nat :=
  match l with
  | [] => (s, [])
  | a :: rest =>
    let r := putFile s a
    let rr := putFilesList r.1 rest
    (rr.1, r.2 :: rr.2)

/-- Embeds `PutArchiveFile` (src/store/cache.go lines 753-777): the
archive's own file is interned first; an existing archive with that
same file pointer is returned; otherwise every entry is interned and
the archive appended with the next id. -/
def putArchiveFile (s : Store) (a : ArchArg) : Store × Nat :=
  let rf := putFile s a.file
  match (List.range rf.1.archives.length).find?
      (fun i => (rf.1.archives.getD i default).file == rf.2) with
  | some i => (rf.1, i)
  | none =>
    let re := putFilesList rf.1 a.entries
    ({ re.1 with archives :=
        re.1.archives ++ [{ file := rf.2, entries := re.2, cacheID := some re.1.archives.length }] },
     re.1.archives.length)

/-- `GitRepoSource.URN()` (part_008 lines 34-36):
`urn:x-fp:git:<commit-hex>:<branch>:<tag>`. -/
def repoURN (commit : DigestBytes) (branch tag : String) : String :=
  "urn:x-fp:git:" ++ hexStr commit ++ ":" ++ branch ++ ":" ++ tag

/-- Embeds `PutGitSource` (src/store/cache.go lines 693-710): an
existing repo source with the same URN is returned; otherwise all
files are interned and the source appended with the next id. -/
def putGitSource (s : Store) (r : RepoArg) : Store × Nat :=
  match (List.range s.repos.length).find? (fun i =>
      repoURN (s.repos.getD i default).commit (s.repos.getD i default).branch
          (s.repos.getD i default).tag
        == repoURN r.commit r.branch r.tag) with
  | some i => (s, i)
  | none =>
    let re := putFilesList s r.files
    ({ re.1 with repos :=
        re.1.repos ++ [{ commit := r.commit, tag := r.tag, branch := r.branch, url := r.url,
                         files := re.2, cacheID := some re.1.repos.length }] },
     re.1.repos.length)

/-- Embeds `PutStatFingerprint` (src/store/cache.go lines 422-425);
every call site passes an interned fingerprint pointer (index `i`). -/
def putStatFingerprint (s : Store) (key : String) (i : Nat) : Store :=
  { s with statCache := arcAdd s.statCache key i }

/-- One store mutation, for stating invariants over arbitrary
sequences of put operations. -/
inductive PutOp where
  | putFp (a : FpArg)
  | putFileOp (a : FileArg)
  | putArchiveOp (a : ArchArg)
  | putRepoOp (a : RepoArg)
  | putStatOp (key : String) (i : Nat)
deriving Repr

/-- Apply one put operation (discarding the returned reference). -/
def applyPut (s : Store) : PutOp → Store
  | .putFp a => (putFingerprint s a).1
  | .putFileOp a => (putFile s a).1
  | .putArchiveOp a => (putArchiveFile s a).1
  | .putRepoOp a => (putGitSource s a).1
  | .putStatOp k i => putStatFingerprint s k i

/-- The early-return id check loop of `Verify` (src/store/cache.go
lines 288-327) over one slice: stop with failure at the first element
whose recorded cache id differs from its position. -/
def verifyIdsFrom (proj : α → Option Nat) : Nat → List α → Bool
  | _, [] => true
  | i, x :: rest => if cacheIDVal (proj x) == i then verifyIdsFrom proj (i + 1) rest else false

/-- Embeds `Verify`: each of the four slices is checked in order
(fingerprints, files, archives, repos). -/
def storeVerify (s : Store) : Bool :=
  verifyIdsFrom (fun f : Fingerprint => f.cacheID) 0 s.fingerprints
  && verifyIdsFrom (fun f : FileRec => f.cacheID) 0 s.files
  && verifyIdsFrom (fun a : ArchRec => a.cacheID) 0 s.archives
  && verifyIdsFrom (fun r : RepoRec => r.cacheID) 0 s.repos

/-- Embeds `FindFilesWithFingerprint` (src/store/cache.go lines
671-685): the argument fingerprint is first normalized through the
git-sha index; on a miss the function returns nil; otherwise the files
whose fingerprint pointer is the resolved pointer are collected. -/
def findFilesWithFingerprint (s : Store) (fp : Fingerprint) : List Nat :=
  match getFingerprintByGitSHA s fp.gitSHA with
  | none => []
  | some id => (List.range s.files.length).filter (fun i => (s.files.getD i default).fp == id)

/-- Embeds `FindArchiveFilesContainingFingerprint` (src/store/cache.go
lines 803-832): for every file carrying the fingerprint, every archive
gets appended once per entry that is that file (direct containment
only; the transitive search is commented out in the source). -/
def findArchiveFilesContainingFingerprint (s : Store) (fp : Fingerprint) : List Nat :=
  (findFilesWithFingerprint s fp).foldl (fun acc fi =>
    (List.range s.archives.length).foldl (fun acc2 ai =>
      acc2 ++ ((s.archives.getD ai default).entries.filter (fun e => e == fi)).map (fun _ => ai))
      acc) []

/-! ### Serialization (src/store/cache.go lines 52-238) -/
/-- `record.SerializedFingerprint`: the fingerprint value copied as-is
plus the serialization id. -/
structure SerializedFingerprint where
  id : Nat
  fp : Fingerprint
deriving Repr, DecidableEq

/-- `record.SerializedFile`. -/
structure SerializedFile where
  id : Nat
  path : String
  fingerprint : Nat
deriving Repr, DecidableEq

/-- `record.SerializedArchiveFile`. -/
structure SerializedArchiveFile where
  id : Nat
  file : Nat
  entries : List Nat
deriving Repr, DecidableEq

/-- `record.SerializedGitRepo`; `NewSerializedCache` leaves the `ID`
field at its zero value. -/
structure SerializedGitRepo where
  id : Nat := 0
  commit : DigestBytes
  tag : String := ""
  branch : String := ""
  url : String := ""
  files : List Nat := []
deriving Repr, DecidableEq

/-- `store.SerializedCache`: the id-addressed on-disk form.  Both
persisted encodings (the Snappy-framed gob stream and the yaml text)
are produced from and parsed into this structure by external encoder
libraries, which are collaborators per the specification's scope. -/
structure SerializedCache where
  fingerprints : List SerializedFingerprint
  files : List SerializedFile
  archives : List SerializedArchiveFile
  repos : List SerializedGitRepo
  statCache : List (String × Nat)
deriving Repr, DecidableEq

/-- Step 1 of `NewSerializedCache`: fingerprints are copied as-is with
their position as id. -/
def serializeFingerprintsFrom : Nat → List Fingerprint → List SerializedFingerprint
  | _, [] => []
  | i, f :: rest => { id := i, fp := f } :: serializeFingerprintsFrom (i + 1) rest

/-- Step 2 of `NewSerializedCache`: a file is written with its own
recorded cache id and the recorded cache id of its fingerprint. -/
def serializeFile (s : Store) (f : FileRec) : SerializedFile :=
  { id := cacheIDVal f.cacheID
    path := f.path
    fingerprint := cacheIDVal ((s.fingerprints.getD f.fp {}).cacheID) }

/-- Step 3 of `NewSerializedCache`: archives are written with their
position as id and the recorded cache ids of their file and entries. -/
def serializeArchivesFrom (s : Store) : Nat → List ArchRec → List SerializedArchiveFile
  | _, [] => []
  | i, a :: rest =>
    { id := i
      file := cacheIDVal ((s.files.getD a.file default).cacheID)
      entries := a.entries.map (fun e => cacheIDVal ((s.files.getD e default).cacheID)) }
    :: serializeArchivesFrom s (i + 1) rest

/-- Step 4 of `NewSerializedCache`: repos keep their fields, files
become recorded cache ids, the id field stays zero. -/
def serializeRepo (s : Store) (r : RepoRec) : SerializedGitRepo :=
  { commit := r.commit, tag := r.tag, branch := r.branch, url := r.url
    files := r.files.map (fun e => cacheIDVal ((s.files.getD e default).cacheID)) }

/-- Embeds `NewSerializedCache` (src/store/cache.go lines 61-147). -/
def newSerializedCache (s : Store) : SerializedCache :=
  { fingerprints := serializeFingerprintsFrom 0 s.fingerprints
    files := s.files.map (serializeFile s)
    archives := serializeArchivesFrom s 0 s.archives
    repos := s.repos.map (serializeRepo s)
    statCache := s.statCache.map (fun kv => (kv.1, cacheIDVal ((s.fingerprints.getD kv.2 {}).cacheID))) }

/-- Step 1 of `loadSerializedCache`: each fingerprint's id must equal
its position, and the loaded copy gets that id. -/
def loadFingerprintsFrom : Nat → List SerializedFingerprint → Except String (List Fingerprint)
  | _, [] => .ok []
  | i, sf :: rest =>
    if sf.id ≠ i then .error "Mismatched fingerprint id"
    else
      match loadFingerprintsFrom (i + 1) rest with
      | .error e => .error e
      | .ok t => .ok ({ sf.fp with cacheID := some i } :: t)

/-- Step 2 of `loadSerializedCache`: id check, then the file is
rebuilt pointing at the fingerprint with the serialized index. -/
def loadFilesFrom : Nat → List SerializedFile → Except String (List FileRec)
  | _, [] => .ok []
  | i, sf :: rest =>
    if sf.id ≠ i then .error "Mismatched file id"
    else
      match loadFilesFrom (i + 1) rest with
      | .error e => .error e
      | .ok t => .ok ({ path := sf.path, fp := sf.fingerprint, cacheID := some i } :: t)

/-- Step 3 of `loadSerializedCache`: id check, then the archive is
rebuilt from the file and entry indices. -/
def loadArchivesFrom : Nat → List SerializedArchiveFile → Except String (List ArchRec)
  | _, [] => .ok []
  | i, sa :: rest =>
    if sa.id ≠ i then .error "Mismatched archive id"
    else
      match loadArchivesFrom (i + 1) rest with
      | .error e => .error e
      | .ok t => .ok ({ file := sa.file, entries := sa.entries, cacheID := some i } :: t)

/-- Step 4 of `loadSerializedCache`: repos have no id check; each gets
its position as cache id. -/
def loadReposFrom : Nat → List SerializedGitRepo → List RepoRec
  | _, [] => []
  | i, r :: rest =>
    { commit := r.commit, tag := r.tag, branch := r.branch, url := r.url
      files := r.files, cacheID := some i } :: loadReposFrom (i + 1) rest

/-- The git-sha index rebuilt by the load loop: every loaded
fingerprint's git-sha is assigned in order. -/
def buildGitIndexFrom : Nat → List Fingerprint → List (DigestBytes × Nat) → List (DigestBytes × Nat)
  | _, [], m => m
  | i, f :: rest, m => buildGitIndexFrom (i + 1) rest (mapInsert m f.gitSHA i)

/-- Embeds `loadSerializedCache` (src/store/cache.go lines 149-238):
fingerprints, files, archives, repos and the stat cache are rebuilt in
that order into a fresh store; the git-sha index and Bloom filter are
rebuilt from the loaded fingerprints. -/
def loadSerialized (onDisk : SerializedCache) : Except String Store :=
  match loadFingerprintsFrom 0 onDisk.fingerprints with
  | .error e => .error e
  | .ok fps =>
    match loadFilesFrom 0 onDisk.files with
    | .error e => .error e
    | .ok fls =>
      match loadArchivesFrom 0 onDisk.archives with
      | .error e => .error e
      | .ok ars =>
        .ok { fingerprints := fps
              gitSHAIndex := buildGitIndexFrom 0 fps []
              gitSHAFilter := fps.map (fun f => f.gitSHA)
              files := fls
              archives := ars
              repos := loadReposFrom 0 onDisk.repos
              statCache := onDisk.statCache.foldl (fun m kv => arcAdd m kv.1 kv.2) [] }

/-- Embeds `PersistRememberedObjects` (src/store/cache.go lines
428-472): when `Verify` fails nothing is written (the function returns
before opening any file); otherwise the serialized form is written
out.  The result models what reaches the disk. -/
def persistRememberedObjects (s : Store) : Option SerializedCache :=
  if storeVerify s then some (newSerializedCache s) else none

/-- Well-formedness of a store state, as established by the put
operations: every interned object records its own index as cache id,
every stored reference is in range, and the stat-cache keys are
free of duplicates (the ARC cache overwrites by key). -/
def storeWF (s : Store) : Prop :=
  (∀ i, i < s.fingerprints.length → (s.fingerprints.getD i {}).cacheID = some i)
  ∧ (∀ i, i < s.files.length → (s.files.getD i default).cacheID = some i
      ∧ (s.files.getD i default).fp < s.fingerprints.length)
  ∧ (∀ i, i < s.archives.length → (s.archives.getD i default).cacheID = some i
      ∧ (s.archives.getD i default).file < s.files.length
      ∧ ∀ e ∈ (s.archives.getD i default).entries, e < s.files.length)
  ∧ (∀ i, i < s.repos.length → (s.repos.getD i default).cacheID = some i
      ∧ ∀ e ∈ (s.repos.getD i default).files, e < s.files.length)
  ∧ (∀ kv ∈ s.statCache, kv.2 < s.fingerprints.length)
  ∧ (s.statCache.map Prod.fst).Nodup

/-- Whether two fingerprints share a digest of the same kind that is
populated (non-zero) and equal — the merge condition as the
specification words it. -/
def sharesNonzeroDigest (a b : Fingerprint) : Bool :=
  (!(Digest.isZero a.gitSHA) && a.gitSHA == b.gitSHA)
  || (!(Digest.isZero a.md5) && a.md5 == b.md5)
  || (!(Digest.isZero a.sha1) && a.sha1 == b.sha1)
  || (!(Digest.isZero a.sha256) && a.sha256 == b.sha256)
  || (!(Digest.isZero a.sha384) && a.sha384 == b.sha384)
  || (!(Digest.isZero a.sha512) && a.sha512 == b.sha512)
  || (!(Digest.isZero a.hwy64) && a.hwy64 == b.hwy64)
  || (!(Digest.isZero a.hwy128) && a.hwy128 == b.hwy128)
  || (!(Digest.isZero a.hwy256) && a.hwy256 == b.hwy256)

/-- Fingerprint with a zero git-sha, sha256 starting `01`, size 1. -/
def fpZeroA : Fingerprint := { sha256 := 1 :: List.replicate 31 0, size := 1 }

/-- Fingerprint with a zero git-sha, sha256 starting `02`, size 2 —
no digest in common with `fpZeroA`. -/
def fpZeroB : Fingerprint := { sha256 := 2 :: List.replicate 31 0, size := 2 }

/-- The store after interning `fpZeroA` into a fresh store. -/
def storeAfterA : Store := (putFingerprint emptyStore (.fresh fpZeroA)).1

/-- Stored fingerprint with git-sha `03…` and sha256 `09…`. -/
def fpStored : Fingerprint :=
  { gitSHA := 3 :: List.replicate 19 0, sha256 := 9 :: List.replicate 31 0, size := 4 }

/-- Query fingerprint with a different git-sha but the same sha256 and
size as `fpStored`. -/
def fpQueryEx : Fingerprint :=
  { gitSHA := 4 :: List.replicate 19 0, sha256 := 9 :: List.replicate 31 0, size := 4 }

/-- Store holding one file whose fingerprint is `fpStored`. -/
def c10WitnessStore : Store :=
  (putFile emptyStore (FileArg.fresh ⟨"a.txt", FpArg.fresh fpStored⟩)).1

/-! ### The verify claim (C5) -/
/-- Positional reading of the id check: element `j` of the slice
records cache id `k + j`. -/
def idsOkFrom (proj : α → Option Nat) : Nat → List α → Prop
  | _, [] => True
  | k, x :: rest => cacheIDVal (proj x) = k ∧ idsOkFrom proj (k + 1) rest

/-- Id-consistency of all four slices, the invariant `Verify` checks. -/
def storeConsistent (s : Store) : Prop :=
  idsOkFrom (fun f : Fingerprint => f.cacheID) 0 s.fingerprints
  ∧ idsOkFrom (fun f : FileRec => f.cacheID) 0 s.files
  ∧ idsOkFrom (fun a : ArchRec => a.cacheID) 0 s.archives
  ∧ idsOkFrom (fun r : RepoRec => r.cacheID) 0 s.repos

/-- Indexed reading of id-consistency, as the specification words it:
the element stored at index `id` records cache id `id`. -/
def storeIdsIndexed (s : Store) : Prop :=
  (∀ i, i < s.fingerprints.length → cacheIDVal ((s.fingerprints.getD i {}).cacheID) = i)
  ∧ (∀ i, i < s.files.length → cacheIDVal ((s.files.getD i default).cacheID) = i)
  ∧ (∀ i, i < s.archives.length → cacheIDVal ((s.archives.getD i default).cacheID) = i)
  ∧ (∀ i, i < s.repos.length → cacheIDVal ((s.repos.getD i default).cacheID) = i)

/-- A store whose single fingerprint records the wrong cache id. -/
def badStore : Store := { fingerprints := [{ cacheID := some 5 }] }

/-- Fingerprint of a container blob used by the round-trip witness. -/
def fpArchBlob : Fingerprint := { gitSHA := 5 :: List.replicate 19 0, size := 100 }

/-- Fingerprint of an archive entry used by the round-trip witness. -/
def fpEntryBlob : Fingerprint := { gitSHA := 6 :: List.replicate 19 0, size := 3 }

/-- Concrete store reached by put operations: one archive with one
entry, one git repo source referencing the entry file, one stat-cache
entry. -/
def c2WitnessStore : Store :=
  putStatFingerprint
    (putGitSource
      (putArchiveFile emptyStore
        { file := FileArg.fresh ⟨"a.tar", FpArg.fresh fpArchBlob⟩
          entries := [FileArg.fresh ⟨"x.txt", FpArg.fresh fpEntryBlob⟩] }).1
      { commit := 7 :: List.replicate 19 0, tag := "v1", branch := "master", url := "u"
        files := [FileArg.ref 1] }).1
    "k1" 0

theorem fill_norm (p : Bool) (a b : DigestBytes) :
    (if p && !(a == b) then b else a) = if p then b else a := by
  cases p
  · simp
  · by_cases h : a = b
    · simp [h]
    · simp [h]

theorem fillSize_norm (a b : Int) :
    (if a == 0 && b != 0 then b else a) = if a == 0 then b else a := by
  by_cases ha : a = 0
  · by_cases hb : b = 0 <;> simp [ha, hb]
  · simp [ha]

theorem updateWith_eq_mergeSpec (f of : Fingerprint) :
    f.updateWith of = f.mergeSpec of := by
  unfold Fingerprint.updateWith Fingerprint.mergeSpec
  ext1 <;> simp only [fill_norm, fillSize_norm]

/-- C9: the size check in `Fingerprint.Is` precedes every digest
comparison: two fingerprints with conflicting non-zero sizes are never
equivalent, whatever digests they share.  (The `samePtr = true → a = b`
hypothesis records that Go pointer equality implies value equality;
together with the size hypotheses it forces `samePtr = false`.) -/
theorem is_false_of_size_conflict (samePtr : Bool) (a b : Fingerprint)
    (ha : a.size ≠ 0) (hb : b.size ≠ 0) (hab : a.size ≠ b.size)
    (hp : samePtr = true → a = b) :
    fingerprintIs samePtr a b = false := by
  have hsp : samePtr = false := by
    cases samePtr
    · rfl
    · exact absurd (congrArg Fingerprint.size (hp rfl)) hab
  subst hsp
  unfold fingerprintIs
  simp [ha, hb, hab]

/-! ### Theorems for the scanner, tee and hash-all claims -/
/-- C3: the recursion limit is never consulted: an entry whose name
looks like an archive is recursed into by `fingerprintArchiveEntry`
for every depth and limit, in particular at depth 10 with the default
limit 10 where the specification requires hashing it as a plain blob. -/
theorem archiveEntry_recursion_ignores_limit :
    (∀ depth limit : Nat,
      (fingerprintArchiveEntryAction "inner.tar" depth limit).1 = EntryAction.recurseArchive)
    ∧ (fingerprintArchiveEntryAction "inner.tar" deepScanLimit deepScanLimit).1
        = EntryAction.recurseArchive := by
  have harch : isScannableArchive "inner.tar" = true := by decide
  have h : ∀ depth limit : Nat,
      (fingerprintArchiveEntryAction "inner.tar" depth limit).1 = EntryAction.recurseArchive := by
    intro depth limit
    simp [fingerprintArchiveEntryAction, harch]
  exact ⟨h, h deepScanLimit deepScanLimit⟩

/-- C7: the nested-wrap check of the passthrough tee can only detect a
reader whose dynamic type is the struct type `passthroughHasher`, but
the reader the tee returns has the pointer type `*passthroughHasher`;
so passing a tee-produced reader back into the tee does not trip the
check (the panic never fires and a doubly wrapped reader is built). -/
theorem tee_nested_check_never_fires_on_tee_output :
    nestedWrapCheckFires fingerprintPassthroughResultType = false
    ∧ (∀ t : GoReaderType,
        nestedWrapCheckFires t = true ↔ t = GoReaderType.passthroughHasherStruct) := by
  constructor
  · rfl
  · intro t
    cases t <;> simp [nestedWrapCheckFires]

/-- C8: `hash all` iterates the nine known algorithm names, but
`Fingerprint.GetDigest` has no case for `"md5"` and spells the
HighwayHash algorithms `"hwy64bp"`/`"hwy128bp"`/`"hwy256bp"`, so for
the four names `md5`, `hwy64`, `hwy128`, `hwy256` it returns a nil
digest and the printed line carries `%!s(<nil>)` instead of the hex
digest — even though all four are in `knownAlgorithms` and the
fingerprint's corresponding digest fields are populated. -/
theorem hash_all_prints_nil_for_md5_and_highway (f : Fingerprint) (path : String) :
    getDigest f "md5" = none ∧ getDigest f "hwy64" = none
    ∧ getDigest f "hwy128" = none ∧ getDigest f "hwy256" = none
    ∧ hashAllLine f "md5" path = "md5:%!s(<nil>)  " ++ path
    ∧ hashAllLine f "hwy64" path = "hwy64:%!s(<nil>)  " ++ path
    ∧ ("md5" ∈ knownAlgorithms ∧ "hwy64" ∈ knownAlgorithms
        ∧ "hwy128" ∈ knownAlgorithms ∧ "hwy256" ∈ knownAlgorithms)
    ∧ getDigest f "sha256" = some f.sha256 := by
  refine ⟨rfl, rfl, rfl, rfl, rfl, rfl, ⟨?_, ?_, ?_, ?_⟩, rfl⟩ <;> decide

theorem colon_delim_uniq : ∀ (t' t₀ p : List Char),
    ':' ∉ t' → ':' ∉ t₀ → (t' ++ [':']) <+: (t₀ ++ ':' :: p) → t' = t₀
  | [], [], _, _, _, _ => rfl
  | [], c :: t₀, p, _, h2, h3 => by
    rw [List.nil_append, List.cons_append, List.cons_prefix_cons] at h3
    exact absurd (h3.1 ▸ List.mem_cons_self c t₀) h2
  | a :: t', [], p, h1, _, h3 => by
    rw [List.cons_append, List.nil_append, List.cons_prefix_cons] at h3
    exact absurd (h3.1 ▸ List.mem_cons_self a t') h1
  | a :: t', c :: t₀, p, h1, h2, h3 => by
    rw [List.cons_append, List.cons_append, List.cons_prefix_cons] at h3
    have ih := colon_delim_uniq t' t₀ p
      (fun h => h1 (List.mem_cons_of_mem a h))
      (fun h => h2 (List.mem_cons_of_mem c h)) h3.2
    rw [h3.1, ih]

theorem drop_append_cons (t : List Char) (c : Char) (r : List Char) :
    List.drop (t.length + 1) (t ++ c :: r) = r := by
  induction t with
  | nil => simp
  | cons a t ih => simp

theorem newDigestMatcher_none (pat : String) (hfind : findAlgoAlt pat.toList = none) :
    newDigestMatcher pat = .error "Invalid pattern" := by
  unfold newDigestMatcher
  rw [hfind]

theorem newDigestMatcher_some (pat t : String) (hfind : findAlgoAlt pat.toList = some t) :
    newDigestMatcher pat = checkHexPart t (pat.toList.drop (t.toList.length + 1)) := by
  unfold newDigestMatcher
  rw [hfind]

theorem checkHexPart_isOk_iff (t : String) (p : List Char) :
    (checkHexPart t p).isOk = true ↔ (p ≠ [] ∧ p.all isHexChar = true) := by
  unfold checkHexPart
  by_cases h : (decide (p.length > 0) && p.all isHexChar) = true
  · rw [if_pos h]
    rw [Bool.and_eq_true_iff, decide_eq_true_iff] at h
    exact ⟨fun _ => ⟨List.ne_nil_of_length_pos h.1, h.2⟩, fun _ => rfl⟩
  · rw [if_neg h]
    constructor
    · intro hh
      exact absurd hh (by simp [Except.isOk, Except.toBool])
    · rintro ⟨hnil, hhex⟩
      exact absurd (by rw [Bool.and_eq_true_iff, decide_eq_true_iff]
                       exact ⟨List.length_pos.mpr hnil, hhex⟩) h

theorem findAlgoAlt_spec (cs : List Char) (t : String) :
    findAlgoAlt cs = some t ↔ t ∈ matcherAlgos ∧ (t.toList ++ [':']) <+: cs := by
  constructor
  · intro h
    unfold findAlgoAlt at h
    split_ifs at h with h1 h2 h3 h4 h5 h6 h7 <;>
      (injection h with h; subst h) <;>
      exact ⟨by decide, List.isPrefixOf_iff_prefix.mp (by assumption)⟩
  · rintro ⟨hmem, hpre⟩
    obtain ⟨r, hr⟩ := hpre
    rw [List.append_assoc, List.singleton_append] at hr
    subst hr
    fin_cases hmem <;> simp [findAlgoAlt, List.isPrefixOf]

theorem newDigestMatcher_accepts_iff (pat : String) :
    (newDigestMatcher pat).isOk = true ↔ matcherAccepts pat := by
  constructor
  · intro h
    rcases hfind : findAlgoAlt pat.toList with _ | t
    · rw [newDigestMatcher_none pat hfind] at h
      exact absurd h (by simp [Except.isOk, Except.toBool])
    · rw [newDigestMatcher_some pat t hfind] at h
      obtain ⟨hmem, hpre⟩ := (findAlgoAlt_spec pat.toList t).mp hfind
      obtain ⟨r, hr⟩ := hpre
      rw [List.append_assoc, List.singleton_append] at hr
      have hdrop : pat.toList.drop (t.toList.length + 1) = r := by
        rw [← hr]
        exact drop_append_cons _ _ _
      rw [hdrop] at h
      obtain ⟨hnil, hhex⟩ := (checkHexPart_isOk_iff t r).mp h
      exact ⟨t, r, hmem, hnil, hhex, hr.symm⟩
  · rintro ⟨t, p, hmem, hp, hhex, hdec⟩
    have hfind : findAlgoAlt pat.toList = some t := by
      rw [findAlgoAlt_spec]
      refine ⟨hmem, ?_⟩
      rw [hdec]
      exact ⟨p, by rw [List.append_assoc, List.singleton_append]⟩
    rw [newDigestMatcher_some pat t hfind]
    have hdrop : pat.toList.drop (t.toList.length + 1) = p := by
      rw [hdec]
      exact drop_append_cons _ _ _
    rw [hdrop]
    exact (checkHexPart_isOk_iff t p).mpr ⟨hp, hhex⟩

/-- C4 (amended): the matcher grammar is accepted exactly as the
specification says, but a wildcard matcher never matches anything:
`FingerprintMatcher.Match` returns false outright when the algorithm
part is `*` (or empty). -/
theorem matcher_accepts_iff_and_wildcard_never_matches (pat : String)
    (m : DigestMatcher) (f : Fingerprint) (hm : m.T = "*") :
    ((newDigestMatcher pat).isOk = true ↔ matcherAccepts pat)
    ∧ fingerprintMatcherMatch m f = false := by
  refine ⟨newDigestMatcher_accepts_iff pat, ?_⟩
  unfold fingerprintMatcherMatch
  rw [hm]
  simp

/-- C4 (counterexample): the pattern `*:9f86` parses, `fpWildcardEx`
has a populated sha256 whose hex rendering starts with `9f86`, yet the
resulting matcher does not match it — the claim that a `*` pattern is
compared against every populated digest fails. -/
theorem wildcard_matcher_counterexample :
    newDigestMatcher "*:9f86" = .ok { P := "9f86", T := "*", B := some [159, 134] }
    ∧ Digest.isZero fpWildcardEx.sha256 = false
    ∧ goStartsWith (hexStr fpWildcardEx.sha256) "9f86" = true
    ∧ (match newDigestMatcher "*:9f86" with
        | .ok m => fingerprintMatcherMatch m fpWildcardEx
        | .error _ => true) = false := by
  refine ⟨rfl, by decide, by decide, rfl⟩

/-- C4 witness instantiation: a non-wildcard pattern is accepted and a
concrete wildcard matcher fails to match. -/
theorem matcher_claim_witness :
    ((newDigestMatcher "sha256:9f86").isOk = true ↔ matcherAccepts "sha256:9f86")
    ∧ fingerprintMatcherMatch { P := "9f86", T := "*", B := some [159, 134] } fpWildcardEx
        = false :=
  matcher_accepts_iff_and_wildcard_never_matches "sha256:9f86"
    { P := "9f86", T := "*", B := some [159, 134] } fpWildcardEx rfl

/-! ### The git hasher claim (C6) and the size-conflict claim (C9) -/
theorem isZero_zeroDigest (w : Nat) : Digest.isZero (zeroDigest w) = true := by
  simp [Digest.isZero, zeroDigest]

theorem calculateSums_fresh (H : HashFns) (data : List Nat) (n : Int) :
    calculateSums H {} data n false =
      { size := n
        gitSHA := if 0 ≤ n ∧ (data.length : Int) = n
                  then H.sha1fn (gitBlobHeader "blob" n ++ data) else zeroDigest 20
        md5 := H.md5fn data
        sha1 := H.sha1fn data
        sha256 := H.sha256fn data
        sha384 := H.sha384fn data
        sha512 := H.sha512fn data
        hwy64 := H.hwy64fn data
        hwy128 := H.hwy128fn data
        hwy256 := H.hwy256fn data
        cacheID := none } := by
  unfold calculateSums gitShaHasherDone
  by_cases hn : n = 0
  · subst hn
    by_cases hlen : (data.length : Int) = 0
    · simp [isZero_zeroDigest, hlen]
    · simp [isZero_zeroDigest, hlen]
  · by_cases hpos : 0 ≤ n
    · by_cases hlen : (data.length : Int) = n
      · simp [isZero_zeroDigest, hn, hpos, hlen]
      · simp [isZero_zeroDigest, hn, hpos, hlen]
    · simp [isZero_zeroDigest, hn, hpos]

/-- C6: the git hasher finalizes to a real digest exactly when the
bytes written equal the declared length; on a mismatch it emits a nil
result, the other digests of the blob are still computed and kept, and
the resulting fingerprint's git-sha stays zero. -/
theorem gitsha_null_on_size_mismatch (H : HashFns) (data : List Nat) (n : Int) :
    ((gitShaHasherDone H "blob" n data).isSome = true ↔ (data.length : Int) = n)
    ∧ ((data.length : Int) ≠ n →
        (calculateSums H {} data n false).gitSHA = zeroDigest 20
        ∧ (calculateSums H {} data n false).md5 = H.md5fn data
        ∧ (calculateSums H {} data n false).sha1 = H.sha1fn data
        ∧ (calculateSums H {} data n false).sha256 = H.sha256fn data
        ∧ (calculateSums H {} data n false).sha384 = H.sha384fn data
        ∧ (calculateSums H {} data n false).sha512 = H.sha512fn data
        ∧ (calculateSums H {} data n false).hwy64 = H.hwy64fn data
        ∧ (calculateSums H {} data n false).hwy128 = H.hwy128fn data
        ∧ (calculateSums H {} data n false).hwy256 = H.hwy256fn data
        ∧ (calculateSums H {} data n false).size = n)
    ∧ ((data.length : Int) = n →
        (calculateSums H {} data n false).gitSHA
          = H.sha1fn (gitBlobHeader "blob" n ++ data)) := by
  refine ⟨?_, ?_, ?_⟩
  · unfold gitShaHasherDone
    by_cases hlen : (data.length : Int) = n
    · simp [hlen]
    · simp [hlen]
  · intro hlen
    rw [calculateSums_fresh]
    simp [hlen]
  · intro hlen
    have hpos : 0 ≤ n := hlen ▸ Int.natCast_nonneg data.length
    rw [calculateSums_fresh]
    simp [hlen, hpos]

/-- C6 witness: two bytes written against a declared length of five
leave the git-sha zero while the md5 digest is still kept. -/
theorem gitsha_null_witness :
    ((gitShaHasherDone witnessHashFns "blob" 5 [1, 2]).isSome = true
      ↔ (([1, 2].length : Int) = 5))
    ∧ (calculateSums witnessHashFns {} [1, 2] 5 false).gitSHA = zeroDigest 20
    ∧ (calculateSums witnessHashFns {} [1, 2] 5 false).md5 = witnessHashFns.md5fn [1, 2] :=
  ⟨(gitsha_null_on_size_mismatch witnessHashFns [1, 2] 5).1,
   ((gitsha_null_on_size_mismatch witnessHashFns [1, 2] 5).2.1 (by decide)).1,
   ((gitsha_null_on_size_mismatch witnessHashFns [1, 2] 5).2.1 (by decide)).2.1⟩

/-- C9 witness: the equivalence test rejects the concrete pair even
though their sha256 digests agree. -/
theorem is_size_conflict_witness :
    fingerprintIs false fpSizeOne fpSizeTwo = false :=
  is_false_of_size_conflict false fpSizeOne fpSizeTwo (by decide) (by decide) (by decide)
    (fun h => absurd h (by decide))

/-! ### Theorems for the put-fingerprint claim (C1) -/
/-- C1 (counterexample): `fpZeroB` has a zero git-sha and shares no
populated digest with the single stored entry, so per the claim it
should be inserted with the next id (1); instead `PutFingerprint`
resolves the zero git-sha through the index (which was keyed with
`fpZeroA`'s zero git-sha on insertion) and merges into entry 0,
leaving the store with one fingerprint. -/
theorem putFingerprint_zero_gitsha_counterexample :
    Digest.isZero fpZeroB.gitSHA = true
    ∧ sharesNonzeroDigest (storeAfterA.fingerprints.getD 0 {}) fpZeroB = false
    ∧ sharesNonzeroDigest fpZeroB (storeAfterA.fingerprints.getD 0 {}) = false
    ∧ storeAfterA.fingerprints.length = 1
    ∧ (putFingerprint storeAfterA (.fresh fpZeroB)).2 = 0
    ∧ (putFingerprint storeAfterA (.fresh fpZeroB)).1.fingerprints.length = 1 := by
  exact ⟨by decide, by decide, by decide, by decide, by decide, by decide⟩

/-- C1 (amended): characterization of `PutFingerprint` on a fresh
argument.  A git-sha index hit (for any git-sha, the zero digest
included) merges into the indexed entry and returns its reference; on
an index miss the first entry equivalent under `Is` is merged into
and returned; otherwise the argument is appended with the next id and
the index and filter are updated with its git-sha.  Merging is the
pointwise fill of zero-valued fields (`mergeSpec`): populated digests
of the existing entry are never overwritten and its cache id is kept. -/
theorem putFingerprint_characterization (s : Store) (fp : Fingerprint) :
    (∀ i, getFingerprintByGitSHA s fp.gitSHA = some i →
      (putFingerprint s (.fresh fp)).2 = i
      ∧ (putFingerprint s (.fresh fp)).1.fingerprints
          = s.fingerprints.set i ((s.fingerprints.getD i {}).mergeSpec fp)
      ∧ (putFingerprint s (.fresh fp)).1.fingerprints.length = s.fingerprints.length
      ∧ (putFingerprint s (.fresh fp)).1.files = s.files)
    ∧ (getFingerprintByGitSHA s fp.gitSHA = none →
       ∀ i, (List.range s.fingerprints.length).find?
            (fun j => fingerprintIs false (s.fingerprints.getD j {}) fp) = some i →
        (putFingerprint s (.fresh fp)).2 = i
        ∧ (putFingerprint s (.fresh fp)).1.fingerprints
            = s.fingerprints.set i ((s.fingerprints.getD i {}).mergeSpec fp)
        ∧ (putFingerprint s (.fresh fp)).1.fingerprints.length = s.fingerprints.length)
    ∧ (getFingerprintByGitSHA s fp.gitSHA = none →
       (List.range s.fingerprints.length).find?
           (fun j => fingerprintIs false (s.fingerprints.getD j {}) fp) = none →
        (putFingerprint s (.fresh fp)).2 = s.fingerprints.length
        ∧ (putFingerprint s (.fresh fp)).1.fingerprints
            = s.fingerprints ++ [{ fp with cacheID := some s.fingerprints.length }]
        ∧ (putFingerprint s (.fresh fp)).1.gitSHAIndex
            = mapInsert s.gitSHAIndex fp.gitSHA s.fingerprints.length
        ∧ (putFingerprint s (.fresh fp)).1.gitSHAFilter
            = s.gitSHAFilter ++ [fp.gitSHA])
    ∧ (∀ old other : Fingerprint,
        old.updateWith other = old.mergeSpec other
        ∧ (old.updateWith other).cacheID = old.cacheID
        ∧ (Digest.isZero old.gitSHA = false → (old.updateWith other).gitSHA = old.gitSHA)
        ∧ (Digest.isZero old.md5 = false → (old.updateWith other).md5 = old.md5)
        ∧ (Digest.isZero old.sha1 = false → (old.updateWith other).sha1 = old.sha1)
        ∧ (Digest.isZero old.sha256 = false → (old.updateWith other).sha256 = old.sha256)
        ∧ (Digest.isZero old.sha384 = false → (old.updateWith other).sha384 = old.sha384)
        ∧ (Digest.isZero old.sha512 = false → (old.updateWith other).sha512 = old.sha512)
        ∧ (Digest.isZero old.hwy64 = false → (old.updateWith other).hwy64 = old.hwy64)
        ∧ (Digest.isZero old.hwy128 = false → (old.updateWith other).hwy128 = old.hwy128)
        ∧ (Digest.isZero old.hwy256 = false → (old.updateWith other).hwy256 = old.hwy256)
        ∧ (Digest.isZero old.gitSHA = true → (old.updateWith other).gitSHA = other.gitSHA)) := by
  have hit : ∀ i, getFingerprintByGitSHA s fp.gitSHA = some i →
      putFingerprint s (.fresh fp)
        = ({ s with fingerprints :=
              s.fingerprints.set i ((s.fingerprints.getD i {}).updateWith fp) }, i) := by
    intro i h
    simp only [putFingerprint]
    rw [h]
  have scanHit : ∀ i, getFingerprintByGitSHA s fp.gitSHA = none →
      (List.range s.fingerprints.length).find?
          (fun j => fingerprintIs false (s.fingerprints.getD j {}) fp) = some i →
      putFingerprint s (.fresh fp)
        = ({ s with fingerprints :=
              s.fingerprints.set i ((s.fingerprints.getD i {}).updateWith fp) }, i) := by
    intro i h1 h2
    simp only [putFingerprint]
    rw [h1, h2]
  have inserted : getFingerprintByGitSHA s fp.gitSHA = none →
      (List.range s.fingerprints.length).find?
          (fun j => fingerprintIs false (s.fingerprints.getD j {}) fp) = none →
      putFingerprint s (.fresh fp)
        = ({ s with
              fingerprints := s.fingerprints ++ [{ fp with cacheID := some s.fingerprints.length }]
              gitSHAIndex := mapInsert s.gitSHAIndex fp.gitSHA s.fingerprints.length
              gitSHAFilter := s.gitSHAFilter ++ [fp.gitSHA] }, s.fingerprints.length) := by
    intro h1 h2
    simp only [putFingerprint]
    rw [h1, h2]
  refine ⟨?_, ?_, ?_, ?_⟩
  · intro i h
    rw [hit i h, updateWith_eq_mergeSpec]
    exact ⟨rfl, rfl, by simp, rfl⟩
  · intro h1 i h2
    rw [scanHit i h1 h2, updateWith_eq_mergeSpec]
    exact ⟨rfl, rfl, by simp⟩
  · intro h1 h2
    rw [inserted h1 h2]
    exact ⟨rfl, rfl, rfl, rfl⟩
  · intro old other
    rw [updateWith_eq_mergeSpec]
    refine ⟨rfl, rfl, ?_, ?_, ?_, ?_, ?_, ?_, ?_, ?_, ?_, ?_⟩ <;>
      (intro h; simp [Fingerprint.mergeSpec, h])

/-- C1 witness instantiation: the zero-git-sha index hit on the
concrete store returns the existing reference 0. -/
theorem putFingerprint_characterization_witness :
    (putFingerprint storeAfterA (FpArg.fresh fpZeroB)).2 = 0 :=
  ((putFingerprint_characterization storeAfterA fpZeroB).1 0 (by decide)).1

/-! ### Theorems for the find-by-fingerprint claim (C10) -/
/-- C10: when the argument's git-sha is not a key of the git-sha
index, `FindFilesWithFingerprint` returns nil and
`FindArchiveFilesContainingFingerprint` returns the empty list,
whatever other digests the argument shares with stored files —
identity is resolved exclusively through the git-sha index. -/
theorem findFiles_gitsha_only (s : Store) (fp : Fingerprint)
    (h : mapLookup s.gitSHAIndex fp.gitSHA = none) :
    findFilesWithFingerprint s fp = []
    ∧ findArchiveFilesContainingFingerprint s fp = [] := by
  have hg : getFingerprintByGitSHA s fp.gitSHA = none := by
    unfold getFingerprintByGitSHA
    split_ifs with hc
    · exact h
    · rfl
  have h1 : findFilesWithFingerprint s fp = [] := by
    unfold findFilesWithFingerprint
    rw [hg]
  refine ⟨h1, ?_⟩
  unfold findArchiveFilesContainingFingerprint
  rw [h1]
  rfl

/-- C10 witness: the query fingerprint shares the stored file's sha256
yet both queries come back empty because its git-sha is unknown. -/
theorem findFiles_gitsha_only_witness :
    findFilesWithFingerprint c10WitnessStore fpQueryEx = []
    ∧ findArchiveFilesContainingFingerprint c10WitnessStore fpQueryEx = [] :=
  findFiles_gitsha_only c10WitnessStore fpQueryEx (by decide)

theorem verifyIdsFrom_iff (proj : α → Option Nat) (l : List α) :
    ∀ k, verifyIdsFrom proj k l = true ↔ idsOkFrom proj k l := by
  induction l with
  | nil => intro k; simp [verifyIdsFrom, idsOkFrom]
  | cons x rest ih =>
    intro k
    simp only [verifyIdsFrom, idsOkFrom]
    by_cases h : cacheIDVal (proj x) = k
    · simp [h, ih (k + 1)]
    · simp [h]

theorem idsOkFrom_getD_iff (proj : α → Option Nat) (d : α) (l : List α) :
    ∀ k, idsOkFrom proj k l ↔ ∀ i, i < l.length → cacheIDVal (proj (l.getD i d)) = k + i := by
  induction l with
  | nil => intro k; simp [idsOkFrom]
  | cons x rest ih =>
    intro k
    simp only [idsOkFrom]
    constructor
    · rintro ⟨h1, h2⟩ i hi
      cases i with
      | zero => simpa using h1
      | succ i =>
        simp only [List.getD_cons_succ]
        rw [(ih (k + 1)).mp h2 i (by simpa using hi)]
        omega
    · intro hall
      refine ⟨by simpa using hall 0 (by simp), (ih (k + 1)).mpr ?_⟩
      intro i hi
      have hh := hall (i + 1) (by simpa using hi)
      simp only [List.getD_cons_succ] at hh
      rw [hh]
      omega

theorem idsOkFrom_append_one (proj : α → Option Nat) (x : α) :
    ∀ (l : List α) (k : Nat), idsOkFrom proj k l → cacheIDVal (proj x) = k + l.length →
      idsOkFrom proj k (l ++ [x])
  | [], k, _, hx => ⟨by simpa using hx, trivial⟩
  | y :: rest, k, h, hx =>
    ⟨h.1, idsOkFrom_append_one proj x rest (k + 1) h.2
      (by simp only [List.length_cons] at hx; omega)⟩

theorem idsOkFrom_set (proj : α → Option Nat) (d : α) :
    ∀ (l : List α) (k i : Nat) (c : α), idsOkFrom proj k l →
      cacheIDVal (proj c) = cacheIDVal (proj (l.getD i d)) →
      idsOkFrom proj k (l.set i c)
  | [], _, _, _, _, _ => trivial
  | x :: rest, k, 0, c, h, hc =>
    ⟨by rw [hc]; simpa using h.1, h.2⟩
  | x :: rest, k, i + 1, c, h, hc =>
    ⟨h.1, idsOkFrom_set proj d rest (k + 1) i c h.2 (by simpa using hc)⟩

theorem putFingerprint_consistent (s : Store) (a : FpArg) (h : storeConsistent s) :
    storeConsistent (putFingerprint s a).1 := by
  cases a with
  | ref i => exact h
  | fresh fp =>
    simp only [putFingerprint]
    cases hg : getFingerprintByGitSHA s fp.gitSHA with
    | some i =>
      refine ⟨?_, h.2.1, h.2.2.1, h.2.2.2⟩
      refine idsOkFrom_set _ {} _ _ _ _ h.1 ?_
      rw [updateWith_eq_mergeSpec]
      rfl
    | none =>
      cases hf : (List.range s.fingerprints.length).find?
          (fun i => fingerprintIs false (s.fingerprints.getD i {}) fp) with
      | some i =>
        refine ⟨?_, h.2.1, h.2.2.1, h.2.2.2⟩
        refine idsOkFrom_set _ {} _ _ _ _ h.1 ?_
        rw [updateWith_eq_mergeSpec]
        rfl
      | none =>
        refine ⟨?_, h.2.1, h.2.2.1, h.2.2.2⟩
        exact idsOkFrom_append_one _ _ _ _ h.1 (by simp [cacheIDVal])

theorem putFile_consistent (s : Store) (a : FileArg) (h : storeConsistent s) :
    storeConsistent (putFile s a).1 := by
  cases a with
  | ref i => exact h
  | fresh f =>
    simp only [putFile]
    cases hf : (List.range s.files.length).find? (fun i =>
        (s.files.getD i default).path == f.path
        && (fpArgPtrEq f.fp (s.files.getD i default).fp
            || fingerprintIs (fpArgPtrEq f.fp (s.files.getD i default).fp)
                (s.fingerprints.getD (s.files.getD i default).fp {})
                (resolveFpArg s f.fp))) with
    | some i => exact h
    | none =>
      have h2 := putFingerprint_consistent s f.fp h
      refine ⟨h2.1, ?_, h2.2.2.1, h2.2.2.2⟩
      exact idsOkFrom_append_one _ _ _ _ h2.2.1 (by simp [cacheIDVal])

theorem putFilesList_consistent (l : List FileArg) :
    ∀ (s : Store), storeConsistent s → storeConsistent (putFilesList s l).1 := by
  induction l with
  | nil => intro s h; exact h
  | cons a rest ih =>
    intro s h
    simp only [putFilesList]
    exact ih _ (putFile_consistent s a h)

theorem putArchiveFile_consistent (s : Store) (a : ArchArg) (h : storeConsistent s) :
    storeConsistent (putArchiveFile s a).1 := by
  simp only [putArchiveFile]
  have h1 := putFile_consistent s a.file h
  cases hf : (List.range (putFile s a.file).1.archives.length).find?
      (fun i => ((putFile s a.file).1.archives.getD i default).file == (putFile s a.file).2) with
  | some i => exact h1
  | none =>
    have h2 := putFilesList_consistent a.entries _ h1
    refine ⟨h2.1, h2.2.1, ?_, h2.2.2.2⟩
    exact idsOkFrom_append_one _ _ _ _ h2.2.2.1 (by simp [cacheIDVal])

theorem putGitSource_consistent (s : Store) (r : RepoArg) (h : storeConsistent s) :
    storeConsistent (putGitSource s r).1 := by
  simp only [putGitSource]
  cases hf : (List.range s.repos.length).find? (fun i =>
      repoURN (s.repos.getD i default).commit (s.repos.getD i default).branch
          (s.repos.getD i default).tag
        == repoURN r.commit r.branch r.tag) with
  | some i => exact h
  | none =>
    have h2 := putFilesList_consistent r.files _ h
    refine ⟨h2.1, h2.2.1, h2.2.2.1, ?_⟩
    exact idsOkFrom_append_one _ _ _ _ h2.2.2.2 (by simp [cacheIDVal])

theorem applyPut_consistent (s : Store) (op : PutOp) (h : storeConsistent s) :
    storeConsistent (applyPut s op) := by
  cases op with
  | putFp a => exact putFingerprint_consistent s a h
  | putFileOp a => exact putFile_consistent s a h
  | putArchiveOp a => exact putArchiveFile_consistent s a h
  | putRepoOp a => exact putGitSource_consistent s a h
  | putStatOp k i => exact h

theorem foldPuts_consistent (ops : List PutOp) :
    ∀ (s : Store), storeConsistent s → storeConsistent (ops.foldl applyPut s) := by
  induction ops with
  | nil => intro s h; exact h
  | cons op rest ih =>
    intro s h
    exact ih _ (applyPut_consistent s op h)

/-- C5: `Verify` succeeds exactly when, in each of the four slices,
the element at index `id` records cache id `id`; every sequence of
put operations starting from a fresh store keeps that invariant; and
when `Verify` fails, `PersistRememberedObjects` writes nothing. -/
theorem verify_exactly_ids_and_puts_preserve (s bad : Store) (ops : List PutOp)
    (hbad : storeVerify bad = false) :
    (storeVerify s = true ↔ storeIdsIndexed s)
    ∧ storeVerify (ops.foldl applyPut emptyStore) = true
    ∧ persistRememberedObjects bad = none := by
  have hiff : ∀ v : Store, storeVerify v = true ↔ storeConsistent v := by
    intro v
    simp only [storeVerify, Bool.and_eq_true, storeConsistent,
      verifyIdsFrom_iff]
    tauto
  have hidx : ∀ v : Store, storeConsistent v ↔ storeIdsIndexed v := by
    intro v
    simp only [storeConsistent, storeIdsIndexed]
    rw [idsOkFrom_getD_iff _ ({} : Fingerprint), idsOkFrom_getD_iff _ (default : FileRec),
      idsOkFrom_getD_iff _ (default : ArchRec), idsOkFrom_getD_iff _ (default : RepoRec)]
    simp
  refine ⟨(hiff s).trans (hidx s), ?_, ?_⟩
  · rw [hiff]
    exact foldPuts_consistent ops emptyStore ⟨trivial, trivial, trivial, trivial⟩
  · simp [persistRememberedObjects, hbad]

/-- C5 witness: concrete sequence of puts verifies, the inconsistent
store does not persist. -/
theorem verify_claim_witness :
    (storeVerify storeAfterA = true ↔ storeIdsIndexed storeAfterA)
    ∧ storeVerify ([PutOp.putFp (.fresh fpZeroA)].foldl applyPut emptyStore) = true
    ∧ persistRememberedObjects badStore = none :=
  verify_exactly_ids_and_puts_preserve storeAfterA badStore
    [PutOp.putFp (.fresh fpZeroA)] (by decide)

/-! ### The serialization round-trip claim (C2) -/
theorem storeVerify_iff_consistent (v : Store) :
    storeVerify v = true ↔ storeConsistent v := by
  simp only [storeVerify, Bool.and_eq_true, storeConsistent, verifyIdsFrom_iff]
  tauto

theorem forall_mem_of_getD (d : α) (P : α → Prop) :
    ∀ (l : List α), (∀ i, i < l.length → P (l.getD i d)) → ∀ x ∈ l, P x := by
  intro l
  induction l with
  | nil => intro _ x hx; cases hx
  | cons y rest ih =>
    intro h x hx
    cases hx with
    | head => simpa using h 0 (by simp)
    | tail _ hmem =>
      refine ih (fun i hi => ?_) x hmem
      simpa using h (i + 1) (by simpa using hi)

theorem listMapSelf (f : α → α) : ∀ (l : List α), (∀ x ∈ l, f x = x) → l.map f = l := by
  intro l
  induction l with
  | nil => intro _; rfl
  | cons y rest ih =>
    intro h
    simp only [List.map_cons]
    rw [h y (.head _), ih (fun x hx => h x (.tail _ hx))]

theorem fingerprint_set_cacheID_self (f : Fingerprint) (k : Nat) (h : f.cacheID = some k) :
    ({ f with cacheID := some k } : Fingerprint) = f := by
  cases f
  simp only at h
  simp [h]

theorem loadFins_roundtrip : ∀ (l : List Fingerprint) (k : Nat),
    (∀ i, i < l.length → (l.getD i {}).cacheID = some (k + i)) →
    loadFingerprintsFrom k (serializeFingerprintsFrom k l) = .ok l := by
  intro l
  induction l with
  | nil => intro k _; rfl
  | cons f rest ih =>
    intro k h
    have h0 : f.cacheID = some k := by simpa using h 0 (by simp)
    have hrest : ∀ i, i < rest.length → (rest.getD i ({} : Fingerprint)).cacheID
        = some (k + 1 + i) := by
      intro i hi
      have hh := h (i + 1) (by simpa using hi)
      simp only [List.getD_cons_succ] at hh
      rw [hh]
      congr 1
      omega
    simp only [serializeFingerprintsFrom, loadFingerprintsFrom]
    rw [if_neg (fun hh => hh rfl), ih (k + 1) hrest,
      fingerprint_set_cacheID_self f k h0]

theorem loadFiles_roundtrip (s : Store) : ∀ (l : List FileRec) (k : Nat),
    (∀ i, i < l.length → (l.getD i default).cacheID = some (k + i)) →
    (∀ f ∈ l, cacheIDVal ((s.fingerprints.getD f.fp {}).cacheID) = f.fp) →
    loadFilesFrom k (l.map (serializeFile s)) = .ok l := by
  intro l
  induction l with
  | nil => intro k _ _; rfl
  | cons f rest ih =>
    intro k h hres
    have h0 : f.cacheID = some k := by simpa using h 0 (by simp)
    have hrest : ∀ i, i < rest.length → (rest.getD i (default : FileRec)).cacheID
        = some (k + 1 + i) := by
      intro i hi
      have hh := h (i + 1) (by simpa using hi)
      simp only [List.getD_cons_succ] at hh
      rw [hh]
      congr 1
      omega
    simp only [List.map_cons, loadFilesFrom, serializeFile, h0]
    rw [if_neg (fun hh => hh rfl), ih (k + 1) hrest (fun x hx => hres x (.tail _ hx))]
    have hfp : cacheIDVal ((s.fingerprints.getD f.fp {}).cacheID) = f.fp := hres f (.head _)
    rw [hfp]
    cases f with
    | mk p fpi c =>
      simp only at h0
      rw [h0]

theorem loadArchives_roundtrip (s : Store) : ∀ (l : List ArchRec) (k : Nat),
    (∀ i, i < l.length → (l.getD i default).cacheID = some (k + i)) →
    (∀ a ∈ l, cacheIDVal ((s.files.getD a.file default).cacheID) = a.file
      ∧ ∀ e ∈ a.entries, cacheIDVal ((s.files.getD e default).cacheID) = e) →
    loadArchivesFrom k (serializeArchivesFrom s k l) = .ok l := by
  intro l
  induction l with
  | nil => intro k _ _; rfl
  | cons a rest ih =>
    intro k h hres
    have h0 : a.cacheID = some k := by simpa using h 0 (by simp)
    have hrest : ∀ i, i < rest.length → (rest.getD i (default : ArchRec)).cacheID
        = some (k + 1 + i) := by
      intro i hi
      have hh := h (i + 1) (by simpa using hi)
      simp only [List.getD_cons_succ] at hh
      rw [hh]
      congr 1
      omega
    simp only [serializeArchivesFrom, loadArchivesFrom]
    rw [if_neg (fun hh => hh rfl), ih (k + 1) hrest (fun x hx => hres x (.tail _ hx))]
    have hfile := (hres a (.head _)).1
    have hent := (hres a (.head _)).2
    rw [listMapSelf _ _ hent, hfile]
    cases a with
    | mk af ae c =>
      simp only at h0
      rw [h0]

theorem loadRepos_roundtrip (s : Store) : ∀ (l : List RepoRec) (k : Nat),
    (∀ i, i < l.length → (l.getD i default).cacheID = some (k + i)) →
    (∀ r ∈ l, ∀ e ∈ r.files, cacheIDVal ((s.files.getD e default).cacheID) = e) →
    loadReposFrom k (l.map (serializeRepo s)) = l := by
  intro l
  induction l with
  | nil => intro k _ _; rfl
  | cons r rest ih =>
    intro k h hres
    have h0 : r.cacheID = some k := by simpa using h 0 (by simp)
    have hrest : ∀ i, i < rest.length → (rest.getD i (default : RepoRec)).cacheID
        = some (k + 1 + i) := by
      intro i hi
      have hh := h (i + 1) (by simpa using hi)
      simp only [List.getD_cons_succ] at hh
      rw [hh]
      congr 1
      omega
    simp only [List.map_cons, loadReposFrom, serializeRepo]
    rw [ih (k + 1) hrest (fun x hx => hres x (.tail _ hx))]
    have hfiles := hres r (.head _)
    rw [listMapSelf _ _ hfiles]
    cases r with
    | mk rc rt rb ru rf c =>
      simp only at h0
      rw [h0]

theorem arcAdd_notmem : ∀ (m : List (String × Nat)) (k : String) (v : Nat),
    k ∉ m.map Prod.fst → arcAdd m k v = m ++ [(k, v)] := by
  intro m
  induction m with
  | nil => intro k v _; rfl
  | cons kv rest ih =>
    intro k v h
    simp only [List.map_cons, List.mem_cons, not_or] at h
    simp only [arcAdd]
    have hne : ¬((kv.1 == k) = true) := fun hb => h.1 (beq_iff_eq.mp hb).symm
    rw [if_neg hne, ih k v h.2]
    rfl

theorem foldl_arcAdd : ∀ (l acc : List (String × Nat)),
    (∀ kv ∈ l, kv.1 ∉ acc.map Prod.fst) → (l.map Prod.fst).Nodup →
    l.foldl (fun m kv => arcAdd m kv.1 kv.2) acc = acc ++ l := by
  intro l
  induction l with
  | nil => intro acc _ _; simp
  | cons kv rest ih =>
    intro acc hd hnd
    simp only [List.foldl_cons]
    rw [arcAdd_notmem acc kv.1 kv.2 (hd kv (.head _))]
    simp only [List.map_cons, List.nodup_cons] at hnd
    rw [ih (acc ++ [kv]) ?_ hnd.2]
    · simp
    · intro kv' hmem
      simp only [List.map_append, List.mem_append, not_or]
      refine ⟨hd kv' (.tail _ hmem), ?_⟩
      simp only [List.map_cons, List.map_nil, List.mem_singleton]
      intro hh
      exact hnd.1 (hh ▸ List.mem_map_of_mem Prod.fst hmem)

/-- C2: for every well-formed store, serializing to the id-addressed
on-disk form and loading it back succeeds and yields a store with the
same fingerprints, files, archives (entry lists in order), repos and
stat-cache entries, every id resolved back to the node at that index;
`Verify` succeeds before and after.  (The byte-level encoders — the
Snappy-framed gob stream and the yaml text — are external library
collaborators transporting `SerializedCache` values.) -/
theorem serialization_roundtrip (s : Store) (hwf : storeWF s) :
    ∃ s', loadSerialized (newSerializedCache s) = .ok s'
      ∧ s'.fingerprints = s.fingerprints ∧ s'.files = s.files
      ∧ s'.archives = s.archives ∧ s'.repos = s.repos
      ∧ s'.statCache = s.statCache
      ∧ storeVerify s' = true ∧ storeVerify s = true := by
  obtain ⟨hfp, hfl, har, hrp, hst, hnd⟩ := hwf
  have hfpz : ∀ i, i < s.fingerprints.length →
      (s.fingerprints.getD i ({} : Fingerprint)).cacheID = some (0 + i) := by
    intro i hi
    rw [Nat.zero_add]
    exact hfp i hi
  have hflz : ∀ i, i < s.files.length →
      (s.files.getD i (default : FileRec)).cacheID = some (0 + i) := by
    intro i hi
    rw [Nat.zero_add]
    exact (hfl i hi).1
  have harz : ∀ i, i < s.archives.length →
      (s.archives.getD i (default : ArchRec)).cacheID = some (0 + i) := by
    intro i hi
    rw [Nat.zero_add]
    exact (har i hi).1
  have hrpz : ∀ i, i < s.repos.length →
      (s.repos.getD i (default : RepoRec)).cacheID = some (0 + i) := by
    intro i hi
    rw [Nat.zero_add]
    exact (hrp i hi).1
  have hresolve : ∀ j, j < s.fingerprints.length →
      cacheIDVal ((s.fingerprints.getD j {}).cacheID) = j := by
    intro j hj
    rw [hfp j hj]
    rfl
  have hresolveF : ∀ j, j < s.files.length →
      cacheIDVal ((s.files.getD j default).cacheID) = j := by
    intro j hj
    rw [(hfl j hj).1]
    rfl
  have hfilesOK : ∀ f ∈ s.files,
      cacheIDVal ((s.fingerprints.getD f.fp {}).cacheID) = f.fp := by
    refine forall_mem_of_getD default _ s.files (fun i hi => ?_)
    exact hresolve _ (hfl i hi).2
  have harchOK : ∀ a ∈ s.archives,
      cacheIDVal ((s.files.getD a.file default).cacheID) = a.file
        ∧ ∀ e ∈ a.entries, cacheIDVal ((s.files.getD e default).cacheID) = e := by
    refine forall_mem_of_getD default _ s.archives (fun i hi => ?_)
    exact ⟨hresolveF _ (har i hi).2.1, fun e he => hresolveF _ ((har i hi).2.2 e he)⟩
  have hrepoOK : ∀ r ∈ s.repos,
      ∀ e ∈ r.files, cacheIDVal ((s.files.getD e default).cacheID) = e := by
    refine forall_mem_of_getD default _ s.repos (fun i hi => ?_)
    exact fun e he => hresolveF _ ((hrp i hi).2 e he)
  have hstatSave : s.statCache.map
      (fun kv => (kv.1, cacheIDVal ((s.fingerprints.getD kv.2 {}).cacheID))) = s.statCache := by
    refine listMapSelf _ _ (fun kv hkv => ?_)
    rw [hresolve kv.2 (hst kv hkv)]
  have hstatLoad : s.statCache.foldl (fun m kv => arcAdd m kv.1 kv.2) [] = s.statCache := by
    rw [foldl_arcAdd s.statCache [] (by simp) hnd]
    rfl
  have hload : loadSerialized (newSerializedCache s) = .ok
      { fingerprints := s.fingerprints
        gitSHAIndex := buildGitIndexFrom 0 s.fingerprints []
        gitSHAFilter := s.fingerprints.map (fun f => f.gitSHA)
        files := s.files
        archives := s.archives
        repos := s.repos
        statCache := s.statCache } := by
    simp only [loadSerialized, newSerializedCache]
    rw [loadFins_roundtrip s.fingerprints 0 hfpz,
      loadFiles_roundtrip s s.files 0 hflz hfilesOK,
      loadArchives_roundtrip s s.archives 0 harz harchOK,
      loadRepos_roundtrip s s.repos 0 hrpz hrepoOK,
      hstatSave, hstatLoad]
  refine ⟨_, hload, rfl, rfl, rfl, rfl, rfl, ?_, ?_⟩
  · rw [storeVerify_iff_consistent]
    refine ⟨?_, ?_, ?_, ?_⟩
    · exact (idsOkFrom_getD_iff _ ({} : Fingerprint) _ 0).mpr
        (fun i hi => by rw [Nat.zero_add]; exact hresolve i hi)
    · exact (idsOkFrom_getD_iff _ (default : FileRec) _ 0).mpr
        (fun i hi => by rw [Nat.zero_add]; exact hresolveF i hi)
    · exact (idsOkFrom_getD_iff _ (default : ArchRec) _ 0).mpr
        (fun i hi => by rw [Nat.zero_add, (har i hi).1]; rfl)
    · exact (idsOkFrom_getD_iff _ (default : RepoRec) _ 0).mpr
        (fun i hi => by rw [Nat.zero_add, (hrp i hi).1]; rfl)
  · rw [storeVerify_iff_consistent]
    refine ⟨?_, ?_, ?_, ?_⟩
    · exact (idsOkFrom_getD_iff _ ({} : Fingerprint) _ 0).mpr
        (fun i hi => by rw [Nat.zero_add]; exact hresolve i hi)
    · exact (idsOkFrom_getD_iff _ (default : FileRec) _ 0).mpr
        (fun i hi => by rw [Nat.zero_add]; exact hresolveF i hi)
    · exact (idsOkFrom_getD_iff _ (default : ArchRec) _ 0).mpr
        (fun i hi => by rw [Nat.zero_add, (har i hi).1]; rfl)
    · exact (idsOkFrom_getD_iff _ (default : RepoRec) _ 0).mpr
        (fun i hi => by rw [Nat.zero_add, (hrp i hi).1]; rfl)

/-- C2 witness: the concrete store is well-formed and round-trips. -/
theorem serialization_roundtrip_witness :
    ∃ s', loadSerialized (newSerializedCache c2WitnessStore) = .ok s'
      ∧ s'.fingerprints = c2WitnessStore.fingerprints ∧ s'.files = c2WitnessStore.files
      ∧ s'.archives = c2WitnessStore.archives ∧ s'.repos = c2WitnessStore.repos
      ∧ s'.statCache = c2WitnessStore.statCache
      ∧ storeVerify s' = true ∧ storeVerify c2WitnessStore = true :=
  serialization_roundtrip c2WitnessStore (by unfold storeWF; decide)

end Binprint

